import Mathlib

/-!
# Verification of the payout ledger engine of `payment-api.js`

This file is a shallow embedding, in Lean 4, of the mock payment API's
payout ledger engine (`HandsOnExerciseABC/payment-api.js`): project
balances, payout records, the idempotency lookup, the per-recipient
rate-limit windows, the callback log, failure injection, and the
HTTP-level operations (`POST /api/v1/payouts`, `GET /api/v1/payouts/:id`,
`GET /api/v1/payouts/by-internal-id/:internalId`,
`PATCH /api/v1/payouts/:id/status`, `POST /api/v1/projects/:id/fund`,
`GET /api/v1/projects/:id/balance`, `POST /api/v1/test/expire/:id`,
`POST /api/v1/test/failure-injection`, `DELETE /api/v1/test/reset`).

Modelling conventions:
* Timestamps (`Date.now()`) are integers in milliseconds, passed in
  explicitly as a `now` parameter; each request is modelled as happening
  at a single instant.
* `Math.random()` draws are abstracted: the generated payout id is a
  `newId : String` parameter, and the failure-injection draw
  (`Math.random() < failureInjection.timeoutRate`) is a
  `timeoutDraw : Bool` parameter.
* JS `Map`s are association lists in insertion order (`Map.set` updates
  the first matching key in place and otherwise appends, which matches
  `Array.from(map.values()).find` iteration order).
* Optional / possibly-absent JSON fields are `Option` values; JS
  truthiness of a string field is `≠ ""` on `Option.getD ""`, and
  truthiness of the numeric `amount` field is `≠ 0` on `Option.getD 0`
  (mirroring the `!amount` check that treats `0` as missing).
* Monetary values are `Int` (they are integer satoshi counts in range;
  balances use `Int` so that non-negativity is a real theorem).
* The fee `Math.ceil(amount * SERVICE_FEE_PERCENT)` is modelled as exact
  IEEE-754 binary64 arithmetic: the double literal `0.02` denotes the
  rational `5764607523034235 / 2^58`, the product is rounded to nearest,
  ties to even, at 53 significant bits, and `Math.ceil` of the resulting
  (exactly represented) value is taken.  See `jsFee` below.
-/

namespace ZbdPay

/-! ## Association-list model of JS `Map` (string keys, insertion order) -/

/-- `Map.get`: value of the first (unique) entry with key `k`. -/
def getA {α : Type} : List (String × α) → String → Option α
  | [], _ => none
  | kv :: rest, k => if kv.1 = k then some kv.2 else getA rest k

/-- `Map.set`: update the first entry with key `k` in place, otherwise
append `(k, v)` at the end (JS `Map` insertion-order semantics). -/
def setA {α : Type} : List (String × α) → String → α → List (String × α)
  | [], k, v => [(k, v)]
  | kv :: rest, k, v => if kv.1 = k then (k, v) :: rest else kv :: setA rest k v

theorem getA_setA_self {α : Type} (l : List (String × α)) (k : String) (v : α) :
    getA (setA l k v) k = some v := by
  induction l with
  | nil => simp [getA, setA]
  | cons kv rest ih =>
    by_cases h : kv.1 = k
    · simp [getA, setA, h]
    · simp [getA, setA, h, ih]

theorem getA_setA_ne {α : Type} (l : List (String × α)) (k k' : String) (v : α)
    (h : k' ≠ k) : getA (setA l k v) k' = getA l k' := by
  induction l with
  | nil =>
    have h2 : ¬ (k = k') := fun hh => h hh.symm
    simp [getA, setA, h2]
  | cons kv rest ih =>
    by_cases hk : kv.1 = k
    · have h2 : ¬ (k = k') := fun hh => h hh.symm
      have h3 : ¬ (kv.1 = k') := fun hh => h2 (hk.symm.trans hh)
      simp [getA, setA, hk, h2, h3]
    · simp [getA, setA, hk, ih]

theorem mem_setA {α : Type} (l : List (String × α)) (k : String) (v : α) :
    ∀ kv ∈ setA l k v, kv ∈ l ∨ kv = (k, v) := by
  induction l with
  | nil => simp [setA]
  | cons hd rest ih =>
    intro kv hkv
    by_cases h : hd.1 = k
    · simp only [setA, if_pos h, List.mem_cons] at hkv
      rcases hkv with h1 | h2
      · exact Or.inr h1
      · exact Or.inl (List.mem_cons_of_mem _ h2)
    · simp only [setA, if_neg h, List.mem_cons] at hkv
      rcases hkv with h1 | h2
      · exact Or.inl (h1 ▸ List.mem_cons_self _ _)
      · rcases ih kv h2 with h3 | h3
        · exact Or.inl (List.mem_cons_of_mem _ h3)
        · exact Or.inr h3

theorem getA_mem {α : Type} (l : List (String × α)) (k : String) (v : α)
    (h : getA l k = some v) : (k, v) ∈ l := by
  induction l with
  | nil => simp [getA] at h
  | cons kv rest ih =>
    by_cases hk : kv.1 = k
    · simp only [getA, if_pos hk, Option.some.injEq] at h
      have hkv : kv = (k, v) := by
        cases kv
        simp_all
      rw [hkv]
      exact List.mem_cons_self _ _
    · simp only [getA, if_neg hk] at h
      exact List.mem_cons_of_mem _ (ih h)

/-! ## The service fee: `Math.ceil(amount * 0.02)` in IEEE-754 binary64

`SERVICE_FEE_PERCENT = 0.02` (payment-api.js line 69).  The double
nearest to the decimal literal `0.02` is exactly
`5764607523034235 / 2^58`.  For `1 ≤ amount ≤ 100000` the product
`amount * 0.02` is computed in binary64: the exact rational product
`amount * 5764607523034235 / 2^58` is rounded to 53 significant bits,
round to nearest, ties to even (no overflow/underflow occurs in this
range), and `Math.ceil` of that value is exact. -/

/-- Numerator of the binary64 value of the literal `0.02`
(its value is `feeC / 2^58`). -/
def feeC : ℕ := 5764607523034235

/-- Fuel-driven binary length: `blenAux f n` is the number of binary
digits of `n`, provided `n < 2^f`. -/
def blenAux : ℕ → ℕ → ℕ
  | 0, _ => 0
  | f + 1, n => if n = 0 then 0 else blenAux f (n / 2) + 1

/-- Binary length of a natural number below `2^70`. -/
def blen (n : ℕ) : ℕ := blenAux 70 n

/-- Round `N / 2^p` to the nearest integer, ties to even
(the binary64 rounding mode). -/
def roundNE (N p : ℕ) : ℕ :=
  if 2 ^ p < 2 * (N % 2 ^ p) then N / 2 ^ p + 1
  else if 2 * (N % 2 ^ p) < 2 ^ p then N / 2 ^ p
  else if (N / 2 ^ p) % 2 = 0 then N / 2 ^ p else N / 2 ^ p + 1

/-- `Math.ceil(amount * 0.02)` computed in binary64, for
`1 ≤ amount ≤ 100000`: the exact product `amount * feeC` (an integer
multiple of `2^(-58)`) is rounded to 53 significant bits, and the
ceiling of the rounded value `M / 2^(58 - s)` is taken. -/
def jsFee (amount : ℕ) : ℕ :=
  (roundNE (amount * feeC) (blen (amount * feeC) - 53)
      + (2 ^ (58 - (blen (amount * feeC) - 53)) - 1))
    / 2 ^ (58 - (blen (amount * feeC) - 53))

theorem blenAux_zero (f : ℕ) : blenAux f 0 = 0 := by
  cases f <;> simp [blenAux]

theorem blenAux_spec : ∀ f n, 0 < n → n < 2 ^ f →
    1 ≤ blenAux f n ∧ 2 ^ (blenAux f n - 1) ≤ n ∧ n < 2 ^ blenAux f n := by
  intro f
  induction f with
  | zero =>
    intro n hn h
    simp only [pow_zero] at h
    omega
  | succ f ih =>
    intro n hn h
    have hne : ¬ n = 0 := by omega
    simp only [blenAux, if_neg hne]
    by_cases h2 : n / 2 = 0
    · have hn1 : n = 1 := by omega
      subst hn1
      simp [blenAux_zero]
    · have hpos : 0 < n / 2 := Nat.pos_of_ne_zero h2
      have hlt : n / 2 < 2 ^ f := by
        have hp : (2 : ℕ) ^ (f + 1) = 2 ^ f * 2 := by ring
        rw [hp] at h
        omega
      obtain ⟨ih1, ih2, ih3⟩ := ih (n / 2) hpos hlt
      refine ⟨by omega, ?_, ?_⟩
      · have he : blenAux f (n / 2) + 1 - 1 = (blenAux f (n / 2) - 1) + 1 := by omega
        rw [he, pow_succ]
        have : 2 ^ (blenAux f (n / 2) - 1) * 2 ≤ (n / 2) * 2 := by
          exact Nat.mul_le_mul_right 2 ih2
        omega
      · rw [pow_succ]
        omega

theorem roundNE_bounds (N p : ℕ) :
    roundNE N p * 2 ^ (p + 1) ≤ 2 * N + 2 ^ p ∧
      2 * N ≤ roundNE N p * 2 ^ (p + 1) + 2 ^ p := by
  have hd : 0 < 2 ^ p := pow_pos (by norm_num) p
  have hmod : N % 2 ^ p < 2 ^ p := Nat.mod_lt _ hd
  have hdm : 2 ^ p * (N / 2 ^ p) + N % 2 ^ p = N := Nat.div_add_mod N (2 ^ p)
  have e1 : (N / 2 ^ p + 1) * 2 ^ (p + 1)
      = 2 * (2 ^ p * (N / 2 ^ p)) + 2 * 2 ^ p := by ring
  have e2 : (N / 2 ^ p) * 2 ^ (p + 1) = 2 * (2 ^ p * (N / 2 ^ p)) := by ring
  unfold roundNE
  split_ifs with h1 h2 h3 <;> constructor <;>
    first
      | (rw [e1]; omega)
      | (rw [e2]; omega)

/-- Key numeric fact: `50 * feeC = 2^58 + 6`, i.e. the double `0.02`
slightly overshoots `1/50`; rounding the product back to 53 bits is what
makes `Math.ceil(amount * 0.02)` agree with the exact ceiling. -/
theorem jsFee_eq (a : ℕ) (ha1 : 1 ≤ a) (ha2 : a ≤ 100000) :
    jsFee a = (a + 49) / 50 := by
  have hfee : jsFee a =
      (roundNE (a * feeC) (blen (a * feeC) - 53)
        + (2 ^ (58 - (blen (a * feeC) - 53)) - 1))
      / 2 ^ (58 - (blen (a * feeC) - 53)) := rfl
  rw [hfee]
  have hNpos : 0 < a * feeC := by
    have h0 : 0 < feeC := by norm_num [feeC]
    exact Nat.mul_pos (by omega) h0
  have hNlt : a * feeC < 2 ^ 70 := by
    calc a * feeC ≤ 100000 * feeC := Nat.mul_le_mul_right _ ha2
    _ < 2 ^ 70 := by norm_num [feeC]
  obtain ⟨hb1, hb2, hb3⟩ := blenAux_spec 70 (a * feeC) hNpos hNlt
  have hbb : blenAux 70 (a * feeC) = blen (a * feeC) := rfl
  rw [hbb] at hb1 hb2 hb3
  set b := blen (a * feeC) with hbdef
  have h52 : (2 : ℕ) ^ 52 ≤ a * feeC := by
    have h1 : 1 * feeC ≤ a * feeC := Nat.mul_le_mul_right feeC ha1
    rw [one_mul] at h1
    calc (2 : ℕ) ^ 52 ≤ feeC := by norm_num [feeC]
    _ ≤ a * feeC := h1
  have h53 : 53 ≤ b := by
    by_contra hcon
    have hle : (2 : ℕ) ^ b ≤ 2 ^ 52 := Nat.pow_le_pow_right (by norm_num) (by omega)
    omega
  have h69 : b ≤ 69 := by
    by_contra hcon
    have hge : (2 : ℕ) ^ 69 ≤ 2 ^ (b - 1) := Nat.pow_le_pow_right (by norm_num) (by omega)
    have hub : a * feeC ≤ 100000 * feeC := Nat.mul_le_mul_right _ ha2
    have hlit : 100000 * feeC < 2 ^ 69 := by norm_num [feeC]
    omega
  set s := b - 53 with hs
  obtain ⟨hr1, hr2⟩ := roundNE_bounds (a * feeC) s
  set M := roundNE (a * feeC) s with hM
  set P := (2 : ℕ) ^ s with hP
  set Q := (2 : ℕ) ^ (s + 1) with hQdef
  set d := (2 : ℕ) ^ (58 - s) with hd
  have hQP : Q = P * 2 := by rw [hQdef, hP, pow_succ]
  have hdQ : d * Q = 576460752303423488 := by
    rw [hd, hQdef, ← pow_add, show 58 - s + (s + 1) = 59 by omega]
    norm_num
  have hP16 : P ≤ 65536 := by
    rw [hP]
    calc (2 : ℕ) ^ s ≤ 2 ^ 16 := Nat.pow_le_pow_right (by norm_num) (by omega)
    _ = 65536 := by norm_num
  have hP1 : 1 ≤ P := by rw [hP]; exact Nat.one_le_two_pow
  have hd1 : 1 ≤ d := by rw [hd]; exact Nat.one_le_two_pow
  have hNup : a * feeC < P * 9007199254740992 := by
    have h2 : (2 : ℕ) ^ b ≤ 2 ^ (s + 53) := Nat.pow_le_pow_right (by norm_num) (by omega)
    calc a * feeC < 2 ^ b := hb3
    _ ≤ 2 ^ (s + 53) := h2
    _ = P * 9007199254740992 := by rw [hP, pow_add]; norm_num
  have hq0 : a = 50 * (a / 50) + a % 50 := (Nat.div_add_mod a 50).symm
  set q0 := a / 50 with hq0def
  set r0 := a % 50 with hr0def
  have hr049 : r0 < 50 := Nat.mod_lt _ (by norm_num)
  have hNsplit : 2 * (a * feeC)
      = q0 * 576460752303423488 + 12 * q0 + r0 * 11529215046068470 := by
    calc 2 * (a * feeC) = 2 * ((50 * q0 + r0) * feeC) := by rw [← hq0]
    _ = q0 * 576460752303423488 + 12 * q0 + r0 * 11529215046068470 := by
        simp only [feeC]; ring
  have h32 : 32 * q0 < P := by omega
  set T := (a + 49) / 50 with hT
  have hup : M ≤ T * d := by
    have e1 : (T * d + 1) * Q = T * 576460752303423488 + Q := by
      calc (T * d + 1) * Q = T * (d * Q) + Q := by ring
      _ = T * 576460752303423488 + Q := by rw [hdQ]
    have h2 : M * Q < (T * d + 1) * Q := by rw [e1]; omega
    have h3 : M < T * d + 1 := lt_of_mul_lt_mul_right h2 (Nat.zero_le Q)
    omega
  have hlow : T * d < M + d := by
    have e1 : (T * d) * Q = T * 576460752303423488 := by
      calc (T * d) * Q = T * (d * Q) := by ring
      _ = T * 576460752303423488 := by rw [hdQ]
    have e2 : (M + d) * Q = M * Q + 576460752303423488 := by
      calc (M + d) * Q = M * Q + d * Q := by ring
      _ = M * Q + 576460752303423488 := by rw [hdQ]
    have h2 : (T * d) * Q < (M + d) * Q := by rw [e1, e2]; omega
    exact lt_of_mul_lt_mul_right h2 (Nat.zero_le Q)
  have hTd : (T + 1) * d = T * d + d := by ring
  apply Nat.div_eq_of_lt_le
  · omega
  · rw [hTd]
    omega

/-! ## Data model (payment-api.js lines 53-89)

`payouts`, `rateLimits`, `projectBalances` are JS `Map`s (association
lists here), `callbackLog` is an array, and `failureInjection` is the
mutable configuration object of lines 60-64. -/

/-- A payout record, as built at payment-api.js lines 253-268. -/
structure Payout where
  id : String
  internalId : Option String
  gamertag : String
  amount : ℤ
  fee : ℤ
  totalCost : ℤ
  projectId : String
  idempotencyKey : Option String
  description : Option String
  callbackUrl : Option String
  status : String
  expiresIn : ℤ
  expiresAt : ℤ
  createdAt : ℤ
  updatedAt : Option ℤ
  deriving DecidableEq

/-- One entry of `callbackLog` (payment-api.js lines 123-135): the
callback URL, the payout carried in the payload, and the send time. -/
structure CallbackEntry where
  url : String
  payout : Payout
  sentAt : ℤ
  deriving DecidableEq

/-- The whole mutable state of the server process. -/
structure EngineState where
  payouts : List (String × Payout)
  rateLimits : List (String × List ℤ)
  projectBalances : List (String × ℤ)
  callbackLog : List CallbackEntry
  fiEnabled : Bool
  fiTimeoutRate : ℚ
  fiRollbackOnTimeout : Bool
  deriving DecidableEq

/-- Initial state: one seeded test project with 100000 sats
(line 86) and failure injection disabled with `timeoutRate = 0.05`
(the rational 1/20, given in lowest terms so that it evaluates),
`rollbackOnTimeout = true` (lines 60-64). -/
def initState : EngineState :=
  { payouts := []
    rateLimits := []
    projectBalances := [("project_test_001", 100000)]
    callbackLog := []
    fiEnabled := false
    fiTimeoutRate := ⟨1, 20, by norm_num, by norm_num⟩
    fiRollbackOnTimeout := true }

/-- `VALID_STATUSES` (lines 75-83). -/
def validStatuses : List String := ["pending", "completed", "expired", "error"]

/-- Body of `POST /api/v1/payouts` (lines 156-165); absent JSON fields
are `none`. -/
structure CreateRequest where
  gamertag : Option String
  amount : Option ℤ
  projectId : Option String
  idempotencyKey : Option String
  callbackUrl : Option String
  expiresIn : Option ℤ
  description : Option String
  internalId : Option String
  deriving DecidableEq

/-- Outcome of `POST /api/v1/payouts`, one constructor per `return`
(in source order; the HTTP status is recorded in `createHttpStatus`). -/
inductive CreateResult where
  /-- `VALIDATION_ERROR`, 400 (lines 168-174): missing `gamertag`,
  `amount`, or `projectId` (a zero amount also lands here: `!amount`). -/
  | validationError
  /-- `INVALID_AMOUNT`, 400 (lines 176-182). -/
  | invalidAmount
  /-- `DESCRIPTION_TOO_LONG`, 400 (lines 185-191). -/
  | descriptionTooLong
  /-- `INVALID_CALLBACK_URL`, 400 (lines 194-200). -/
  | invalidCallbackUrl
  /-- Idempotent replay, 200 (lines 203-214): the existing payout. -/
  | duplicate (existing : Payout)
  /-- `RATE_LIMIT_EXCEEDED`, 429, with `retryAfter` (lines 218-224). -/
  | rateLimitExceeded (retryAfter : ℤ)
  /-- `INSUFFICIENT_BALANCE`, 402 (lines 233-245). -/
  | insufficientBalance (requiredAmount fee totalCost currentBalance : ℤ)
  /-- `GATEWAY_TIMEOUT`, 504 (lines 284-292), with `chargedAmount` and
  `balanceRolledBack`. -/
  | gatewayTimeout (chargedAmount : ℤ) (balanceRolledBack : Bool)
  /-- 201, payout created (lines 306-310). -/
  | created (payout : Payout)
  deriving DecidableEq

/-- HTTP status code of each `POST /api/v1/payouts` outcome. -/
def createHttpStatus : CreateResult → ℕ
  | .validationError => 400
  | .invalidAmount => 400
  | .descriptionTooLong => 400
  | .invalidCallbackUrl => 400
  | .duplicate _ => 200
  | .rateLimitExceeded _ => 429
  | .insufficientBalance _ _ _ _ => 402
  | .gatewayTimeout _ _ => 504
  | .created _ => 201

/-- JS truthiness of an optional string field (`undefined`, `null` and
`""` are falsy). -/
def truthyS (o : Option String) : Bool := (o.getD "") != ""

/-- JS truthiness of the optional numeric `amount` field (`undefined`,
`null` and `0` are falsy — the `!amount` check of line 168). -/
def truthyZ (o : Option ℤ) : Bool := (o.getD 0) != 0

/-- `x || null` applied to an optional string field (lines 255, 262,
263): an absent or empty string becomes `null`. -/
def orNull (o : Option String) : Option String :=
  if (o.getD "") = "" then none else o

/-- The callback-URL regex `/^https?:\/\/.+/` (line 194): an `http://`
or `https://` prefix followed by at least one character. -/
def validCallbackUrl (u : String) : Bool :=
  (u.startsWith "http://" && u.length > 7) || (u.startsWith "https://" && u.length > 8)

/-- Rate-limit window: the timestamps of `rateLimits` newer than
`now - 3600000` ms (the filter of `checkRateLimit`, line 101). -/
def pruneWindow (now : ℤ) (l : List ℤ) : List ℤ :=
  l.filter (fun t => now - 3600000 < t)

/-- `checkRateLimit` (lines 92-105): prune the recipient's window to
the trailing hour, write the pruned list back (creating the entry if
absent), and return the in-window count together with the updated map. -/
def checkRateLimit (rateLimits : List (String × List ℤ)) (gamertag : String)
    (now : ℤ) : ℕ × List (String × List ℤ) :=
  ((pruneWindow now ((getA rateLimits ("rate_" ++ gamertag)).getD [])).length,
   setA rateLimits ("rate_" ++ gamertag)
     (pruneWindow now ((getA rateLimits ("rate_" ++ gamertag)).getD [])))

/-- Number of the recipient's committed-payout timestamps inside the
trailing hour, as counted by `checkRateLimit`. -/
def countWindow (s : EngineState) (gamertag : String) (now : ℤ) : ℕ :=
  (pruneWindow now ((getA s.rateLimits ("rate_" ++ gamertag)).getD [])).length

/-! The local variables of the `POST /api/v1/payouts` handler
(lines 156-268) are factored into named definitions so that theorems
can speak about them; each mirrors one `const`/`let` of the source. -/

/-- The handler's `gamertag` local (destructured at line 157). -/
def gamertagOf (req : CreateRequest) : String := req.gamertag.getD ""

/-- The handler's `amount` local (line 158). -/
def amountOf (req : CreateRequest) : ℤ := req.amount.getD 0

/-- The handler's `projectId` local (line 159). -/
def projectIdOf (req : CreateRequest) : String := req.projectId.getD ""

/-- `fee = Math.ceil(amount * SERVICE_FEE_PERCENT)` (line 230). -/
def feeOf (req : CreateRequest) : ℤ := ((jsFee (amountOf req).toNat : ℕ) : ℤ)

/-- `totalCost = amount + fee` (line 231). -/
def totalCostOf (req : CreateRequest) : ℤ := amountOf req + feeOf req

/-- `balance = projectBalances.get(projectId) || 0` (line 227,
BUG-004: an unknown project silently reads as balance 0). -/
def balanceOf (req : CreateRequest) (s : EngineState) : ℤ :=
  (getA s.projectBalances (projectIdOf req)).getD 0

/-- `expirySeconds = expiresIn || DEFAULT_EXPIRY_SECONDS` (line 248;
`0` is falsy, so it also falls back to 300). -/
def expiryOf (req : CreateRequest) : ℤ :=
  if req.expiresIn.getD 0 = 0 then 300 else req.expiresIn.getD 0

/-- The rate-limit map key `` `rate_${gamertag}` `` (line 93). -/
def rateKeyOf (req : CreateRequest) : String := "rate_" ++ gamertagOf req

/-- The idempotency lookup (lines 203-206, BUG-005: the key is matched
globally, `p.idempotencyKey === idempotencyKey`, with no projectId
condition). -/
def dupLookup (req : CreateRequest) (s : EngineState) : Option (String × Payout) :=
  if truthyS req.idempotencyKey then
    s.payouts.find? (fun kv => kv.2.idempotencyKey = req.idempotencyKey)
  else none

/-- The `payout` object built at lines 253-268. -/
def payoutOf (req : CreateRequest) (now : ℤ) (newId : String) : Payout :=
  { id := newId
    internalId := orNull req.internalId
    gamertag := gamertagOf req
    amount := amountOf req
    fee := feeOf req
    totalCost := totalCostOf req
    projectId := projectIdOf req
    idempotencyKey := req.idempotencyKey
    description := orNull req.description
    callbackUrl := orNull req.callbackUrl
    status := "completed"
    expiresIn := expiryOf req
    expiresAt := now + expiryOf req * 1000
    createdAt := now
    updatedAt := none }

/-- State after `checkRateLimit` pruned and wrote back the recipient's
window (lines 101-102); this happens on every request that reaches the
rate-limit check, even ones that subsequently fail. -/
def statePruned (req : CreateRequest) (s : EngineState) (now : ℤ) : EngineState :=
  { s with rateLimits := (checkRateLimit s.rateLimits (gamertagOf req) now).2 }

/-- State after the balance deduction of line 271. -/
def stateDeducted (req : CreateRequest) (s : EngineState) (now : ℤ) : EngineState :=
  { statePruned req s now with
      projectBalances := setA (statePruned req s now).projectBalances (projectIdOf req)
        (balanceOf req s - totalCostOf req) }

/-- State after the rollback of line 280 (`projectBalances.set(projectId,
balance)` restores the pre-deduction reading). -/
def stateRolledBack (req : CreateRequest) (s : EngineState) (now : ℤ) : EngineState :=
  { stateDeducted req s now with
      projectBalances := setA (stateDeducted req s now).projectBalances (projectIdOf req)
        (balanceOf req s) }

/-- State after `payouts.set(payoutId, payout)` (line 296). -/
def stateStored (req : CreateRequest) (s : EngineState) (now : ℤ) (newId : String) :
    EngineState :=
  { stateDeducted req s now with
      payouts := setA (stateDeducted req s now).payouts newId (payoutOf req now newId) }

/-- State after `addRateLimit(gamertag)` (lines 108-114, 299) pushed
`now` onto the recipient's (already pruned) window. -/
def stateRateLogged (req : CreateRequest) (s : EngineState) (now : ℤ) (newId : String) :
    EngineState :=
  { stateStored req s now newId with
      rateLimits := setA (stateStored req s now newId).rateLimits (rateKeyOf req)
        (((getA (stateStored req s now newId).rateLimits (rateKeyOf req)).getD []) ++ [now]) }

/-- Final committed state (lines 295-304): payout stored, rate-limit
entry added, and a callback logged when a callback URL was supplied. -/
def stateCommitted (req : CreateRequest) (s : EngineState) (now : ℤ) (newId : String) :
    EngineState :=
  if truthyS req.callbackUrl then
    { stateRateLogged req s now newId with
        callbackLog := (stateRateLogged req s now newId).callbackLog
          ++ [⟨req.callbackUrl.getD "", payoutOf req now newId, now⟩] }
  else stateRateLogged req s now newId

/-- `POST /api/v1/payouts` (payment-api.js lines 153-311).

Extra parameters: `now` is `Date.now()` for this request, `newId` the
id produced by `generateId()`, and `timeoutDraw` the outcome of the
failure-injection draw `Math.random() < failureInjection.timeoutRate`. -/
def createPayout (req : CreateRequest) (s : EngineState) (now : ℤ)
    (newId : String) (timeoutDraw : Bool) : CreateResult × EngineState :=
  -- Validation (BUG-001: `!amount` treats 0 as falsy), lines 167-174
  if ¬ (truthyS req.gamertag ∧ truthyZ req.amount ∧ truthyS req.projectId) then
    (.validationError, s)
  -- Range check, lines 176-182
  else if amountOf req < 1 ∨ 100000 < amountOf req then (.invalidAmount, s)
  -- Description length, lines 185-191
  else if 144 < (req.description.getD "").length then (.descriptionTooLong, s)
  -- Callback URL format, lines 194-200
  else if truthyS req.callbackUrl ∧ ¬ validCallbackUrl (req.callbackUrl.getD "") then
    (.invalidCallbackUrl, s)
  else
    -- Idempotency (BUG-005: not scoped to projectId), lines 202-214
    match dupLookup req s with
    | some kv => (.duplicate kv.2, s)
    | none =>
      -- Rate limit, lines 216-224
      if 10 ≤ (checkRateLimit s.rateLimits (gamertagOf req) now).1 then
        (.rateLimitExceeded 3600, statePruned req s now)
      -- Balance check (BUG-004) and fee, lines 226-245
      else if balanceOf req s < totalCostOf req then
        (.insufficientBalance (amountOf req) (feeOf req) (totalCostOf req)
           (balanceOf req s), statePruned req s now)
      -- Failure injection, lines 273-293 (balance already deducted)
      else if s.fiEnabled ∧ timeoutDraw then
        if s.fiRollbackOnTimeout then
          (.gatewayTimeout (totalCostOf req) true, stateRolledBack req s now)
        else
          (.gatewayTimeout (totalCostOf req) false, stateDeducted req s now)
      -- Commit, lines 295-310
      else
        (.created (payoutOf req now newId), stateCommitted req s now newId)

/-- A payout flipped to `expired` on read (lines 331-332). -/
def expiredOnRead (payout : Payout) (now : ℤ) : Payout :=
  { payout with status := "expired", updatedAt := some now }

/-- `GET /api/v1/payouts/:id` (lines 317-343): look up a payout and, if
it is `pending` and past its expiry, flip it to `expired` as a side
effect of the read, emitting a callback when one is registered.
Returns `none` for `PAYOUT_NOT_FOUND`. -/
def getPayoutOp (s : EngineState) (now : ℤ) (pid : String) :
    Option Payout × EngineState :=
  match getA s.payouts pid with
  | none => (none, s)
  | some payout =>
    -- `isExpired(payout) && payout.status === 'pending'` (line 330)
    if payout.expiresAt < now ∧ payout.status = "pending" then
      (some (expiredOnRead payout now),
       if truthyS payout.callbackUrl then
         { s with payouts := setA s.payouts pid (expiredOnRead payout now),
                  callbackLog := s.callbackLog
                    ++ [⟨payout.callbackUrl.getD "", expiredOnRead payout now, now⟩] }
       else { s with payouts := setA s.payouts pid (expiredOnRead payout now) })
    else (some payout, s)

/-- `GET /api/v1/payouts/by-internal-id/:internalId` (lines 585-605):
first payout whose `internalId` equals the path parameter.  The source
performs no expiration check on this path and never mutates state. -/
def getPayoutByInternalId (s : EngineState) (iid : String) :
    Option Payout × EngineState :=
  match s.payouts.find? (fun kv => kv.2.internalId = some iid) with
  | none => (none, s)
  | some kv => (some kv.2, s)

/-- Outcome of `PATCH /api/v1/payouts/:id/status` and of
`POST /api/v1/test/expire/:id`. -/
inductive StatusResult where
  | payoutNotFound
  | invalidStatus
  | ok (payout : Payout)
  deriving DecidableEq

/-- A payout with its status overwritten (lines 479-480). -/
def withStatus (payout : Payout) (st : String) (now : ℤ) : Payout :=
  { payout with status := st, updatedAt := some now }

/-- `PATCH /api/v1/payouts/:id/status` (lines 459-492): set any status
in `VALID_STATUSES`, stamp `updatedAt`, emit a callback if registered. -/
def updateStatus (s : EngineState) (now : ℤ) (pid : String)
    (status : Option String) : StatusResult × EngineState :=
  match getA s.payouts pid with
  | none => (.payoutNotFound, s)
  | some payout =>
    match status with
    | none => (.invalidStatus, s)
    | some st =>
      if st ∈ validStatuses then
        (.ok (withStatus payout st now),
         if truthyS payout.callbackUrl then
           { s with payouts := setA s.payouts pid (withStatus payout st now),
                    callbackLog := s.callbackLog
                      ++ [⟨payout.callbackUrl.getD "", withStatus payout st now, now⟩] }
         else { s with payouts := setA s.payouts pid (withStatus payout st now) })
      else (.invalidStatus, s)

/-- A payout force-expired by the test endpoint (lines 566-568). -/
def forceExpired (payout : Payout) (now : ℤ) : Payout :=
  { payout with expiresAt := now - 1000, status := "expired", updatedAt := some now }

/-- `POST /api/v1/test/expire/:id` (lines 554-579): force expiry into
the past and status to `expired`. -/
def forceExpire (s : EngineState) (now : ℤ) (pid : String) :
    StatusResult × EngineState :=
  match getA s.payouts pid with
  | none => (.payoutNotFound, s)
  | some payout =>
    (.ok (forceExpired payout now),
     if truthyS payout.callbackUrl then
       { s with payouts := setA s.payouts pid (forceExpired payout now),
                callbackLog := s.callbackLog
                  ++ [⟨payout.callbackUrl.getD "", forceExpired payout now, now⟩] }
     else { s with payouts := setA s.payouts pid (forceExpired payout now) })

/-- Outcome of `POST /api/v1/projects/:id/fund`. -/
inductive FundResult where
  | invalidAmount
  | funded (previousBalance addedAmount newBalance : ℤ)
  deriving DecidableEq

/-- `POST /api/v1/projects/:id/fund` (lines 377-403).  BUG-006: the
project is created implicitly when unknown (`|| 0` at line 389). -/
def fundProject (s : EngineState) (pid : String) (amount : Option ℤ) :
    FundResult × EngineState :=
  -- `!amount || amount < 1` (line 380)
  if ¬ truthyZ amount ∨ amount.getD 0 < 1 then (.invalidAmount, s)
  else
    (.funded ((getA s.projectBalances pid).getD 0) (amount.getD 0)
       ((getA s.projectBalances pid).getD 0 + amount.getD 0),
     { s with projectBalances := setA s.projectBalances pid ((getA s.projectBalances pid).getD 0 + amount.getD 0) })

/-- `GET /api/v1/projects/:id/balance` (lines 349-370): `none` means
`PROJECT_NOT_FOUND` (404). -/
def getBalance (s : EngineState) (pid : String) : Option ℤ :=
  getA s.projectBalances pid

/-- `POST /api/v1/test/failure-injection` (lines 519-537): partial
update, each field applied only when supplied; `timeoutRate` clamped to
[0, 1]. -/
def configureFailureInjection (s : EngineState) (enabled : Option Bool)
    (timeoutRate : Option ℚ) (rollbackOnTimeout : Option Bool) : EngineState :=
  { s with
    fiEnabled := enabled.getD s.fiEnabled
    fiTimeoutRate := match timeoutRate with
                     | some r => max 0 (min 1 r)
                     | none => s.fiTimeoutRate
    fiRollbackOnTimeout := rollbackOnTimeout.getD s.fiRollbackOnTimeout }

/-- `DELETE /api/v1/test/reset` (lines 409-421): clear everything and
reseed the test project; failure-injection settings are not touched. -/
def resetOp (s : EngineState) : EngineState :=
  { payouts := []
    rateLimits := []
    projectBalances := [("project_test_001", 100000)]
    callbackLog := []
    fiEnabled := s.fiEnabled
    fiTimeoutRate := s.fiTimeoutRate
    fiRollbackOnTimeout := s.fiRollbackOnTimeout }

/-- One client-visible operation of the engine, with all
non-determinism (clock, generated id, injection draw) made explicit. -/
inductive Op where
  | create (req : CreateRequest) (now : ℤ) (newId : String) (timeoutDraw : Bool)
  | getPayout (pid : String) (now : ℤ)
  | getByInternalId (iid : String)
  | patchStatus (pid : String) (status : Option String) (now : ℤ)
  | expire (pid : String) (now : ℤ)
  | fund (pid : String) (amount : Option ℤ)
  | queryBalance (pid : String)
  | configure (enabled : Option Bool) (timeoutRate : Option ℚ)
      (rollbackOnTimeout : Option Bool)
  | reset

/-- State transition of one operation (responses discarded). -/
def stepOp (s : EngineState) : Op → EngineState
  | .create req now newId timeoutDraw => (createPayout req s now newId timeoutDraw).2
  | .getPayout pid now => (getPayoutOp s now pid).2
  | .getByInternalId iid => (getPayoutByInternalId s iid).2
  | .patchStatus pid status now => (updateStatus s now pid status).2
  | .expire pid now => (forceExpire s now pid).2
  | .fund pid amount => (fundProject s pid amount).2
  | .queryBalance _ => s
  | .configure enabled timeoutRate rollbackOnTimeout =>
      configureFailureInjection s enabled timeoutRate rollbackOnTimeout
  | .reset => resetOp s

/-- State after running a sequence of operations from the initial
server state. -/
def runOps (ops : List Op) : EngineState := ops.foldl stepOp initState

/-! ## Claim C9: project balances are never negative -/

/-- All recorded project balances are non-negative. -/
def BalancesNonneg (s : EngineState) : Prop :=
  ∀ kv ∈ s.projectBalances, 0 ≤ kv.2

theorem getD_zero_nonneg (l : List (String × ℤ)) (k : String)
    (h : ∀ kv ∈ l, 0 ≤ kv.2) : 0 ≤ (getA l k).getD 0 := by
  cases hg : getA l k with
  | none => simp
  | some v =>
    have := h (k, v) (getA_mem l k v hg)
    simpa using this

theorem setA_nonneg (l : List (String × ℤ)) (k : String) (v : ℤ)
    (h : ∀ kv ∈ l, 0 ≤ kv.2) (hv : 0 ≤ v) : ∀ kv ∈ setA l k v, 0 ≤ kv.2 := by
  intro kv hkv
  rcases mem_setA l k v kv hkv with h1 | h1
  · exact h kv h1
  · rw [h1]
    exact hv

theorem statePruned_balances (req : CreateRequest) (s : EngineState) (now : ℤ) :
    (statePruned req s now).projectBalances = s.projectBalances := rfl

theorem stateCommitted_balances (req : CreateRequest) (s : EngineState) (now : ℤ)
    (newId : String) :
    (stateCommitted req s now newId).projectBalances
      = setA s.projectBalances (projectIdOf req) (balanceOf req s - totalCostOf req) := by
  unfold stateCommitted
  split <;> rfl

theorem createPayout_preserves_nonneg (req : CreateRequest) (s : EngineState)
    (now : ℤ) (newId : String) (draw : Bool) (h : BalancesNonneg s) :
    BalancesNonneg (createPayout req s now newId draw).2 := by
  unfold createPayout
  split
  · exact h
  split
  · exact h
  split
  · exact h
  split
  · exact h
  split
  · exact h
  split
  · exact h
  split
  · exact h
  split
  · -- failure injection branch
    split
    · -- rollback: balance restored to its pre-deduction reading
      exact setA_nonneg _ _ _ (setA_nonneg _ _ _ h (by omega)) (getD_zero_nonneg _ _ h)
    · -- no rollback: balance stays deducted (still non-negative)
      exact setA_nonneg _ _ _ h (by omega)
  · -- committed payout: balance deducted after the check
    intro kv hkv
    rw [stateCommitted_balances] at hkv
    exact setA_nonneg _ _ _ h (by omega) kv hkv

theorem stepOp_preserves_nonneg (s : EngineState) (op : Op)
    (h : BalancesNonneg s) : BalancesNonneg (stepOp s op) := by
  cases op with
  | create req now newId timeoutDraw => exact createPayout_preserves_nonneg req s now newId timeoutDraw h
  | getPayout pid now =>
    simp only [stepOp, getPayoutOp]
    split
    · exact h
    split
    · split
      · exact h
      · exact h
    · exact h
  | getByInternalId iid =>
    simp only [stepOp, getPayoutByInternalId]
    split
    · exact h
    · exact h
  | patchStatus pid status now =>
    simp only [stepOp, updateStatus]
    split
    · exact h
    split
    · exact h
    split
    · split
      · exact h
      · exact h
    · exact h
  | expire pid now =>
    simp only [stepOp, forceExpire]
    split
    · exact h
    split
    · exact h
    · exact h
  | fund pid amount =>
    simp only [stepOp, fundProject]
    split
    · exact h
    · refine setA_nonneg _ _ _ h ?_
      have h0 := getD_zero_nonneg s.projectBalances pid h
      rename_i hcond
      simp only [truthyZ, not_or, bne] at hcond
      omega
  | queryBalance pid => exact h
  | configure enabled timeoutRate rollbackOnTimeout => exact h
  | reset =>
    intro kv hkv
    simp only [stepOp, resetOp, List.mem_singleton] at hkv
    rw [hkv]
    norm_num

/-- C9: for every sequence of engine operations (funding, payout
creation including gateway-timeout outcomes, status updates,
expiration, resets), every recorded project balance is non-negative:
`createPayout` deducts `amount + fee` only after checking
`balance ≥ totalCost`, the rollback path restores the pre-deduction
value, and `fundProject` only adds a positive amount. -/
theorem balances_never_negative (ops : List Op) :
    ∀ kv ∈ (runOps ops).projectBalances, 0 ≤ kv.2 := by
  have hinit : BalancesNonneg initState := by
    intro kv hkv
    simp only [initState, List.mem_singleton] at hkv
    rw [hkv]
    norm_num
  have hmain : ∀ (l : List Op) (s : EngineState), BalancesNonneg s →
      BalancesNonneg (l.foldl stepOp s) := by
    intro l
    induction l with
    | nil => intro s hs; exact hs
    | cons op rest ih =>
      intro s hs
      exact ih (stepOp s op) (stepOp_preserves_nonneg s op hs)
  exact hmain ops initState hinit

/-- A concrete run mixing funding, failure-injection configuration and
a payout attempt that times out with rollback disabled (the
"charged but not paid" path): project `projA` ends at 500 - 102 = 398. -/
def opsRun : List Op :=
  [Op.fund "projA" (some 500),
   Op.configure (some true) none (some false),
   Op.create { gamertag := some "alice", amount := some 100,
               projectId := some "projA", idempotencyKey := none,
               callbackUrl := none, expiresIn := none,
               description := none, internalId := none } 0 "p1" true,
   Op.patchStatus "p1" (some "error") 5]

/-- C9 witness: the concrete run ends with `projA` at 398 sats, and the
invariant theorem yields its non-negativity. -/
theorem balances_never_negative_witness :
    getA (runOps opsRun).projectBalances "projA" = some 398 ∧
    0 ≤ (getA (runOps opsRun).projectBalances "projA").getD 0 := by
  refine ⟨by decide, ?_⟩
  cases hg : getA (runOps opsRun).projectBalances "projA" with
  | none => simp
  | some v =>
    simpa using balances_never_negative opsRun ("projA", v) (getA_mem _ _ _ hg)

/-! ## Gateway-timeout outcomes (claims C2 and C10) -/

/-- Full characterization of a `GATEWAY_TIMEOUT` outcome of
`createPayout`: the charge equals `amount + fee`, the reported rollback
flag is the configured one, injection was enabled and the draw fired,
the payouts index / callback log / failure-injection settings are
untouched, the recipient's rate-limit window is exactly the lazily
pruned one (no timestamp appended), and the project balance is either
restored (rollback) or left deducted (no rollback). -/
theorem createPayout_timeout_chars (req : CreateRequest) (s : EngineState)
    (now : ℤ) (newId : String) (draw : Bool) (c : ℤ) (rb : Bool) (s' : EngineState)
    (h : createPayout req s now newId draw = (.gatewayTimeout c rb, s')) :
    c = totalCostOf req ∧ rb = s.fiRollbackOnTimeout ∧
    s.fiEnabled = true ∧ draw = true ∧
    s'.payouts = s.payouts ∧
    s'.callbackLog = s.callbackLog ∧
    s'.rateLimits = (checkRateLimit s.rateLimits (gamertagOf req) now).2 ∧
    s'.fiEnabled = s.fiEnabled ∧ s'.fiTimeoutRate = s.fiTimeoutRate ∧
    s'.fiRollbackOnTimeout = s.fiRollbackOnTimeout ∧
    (s.fiRollbackOnTimeout = true →
      s'.projectBalances = setA (setA s.projectBalances (projectIdOf req)
        (balanceOf req s - totalCostOf req)) (projectIdOf req) (balanceOf req s)) ∧
    (s.fiRollbackOnTimeout = false →
      s'.projectBalances = setA s.projectBalances (projectIdOf req)
        (balanceOf req s - totalCostOf req)) ∧
    totalCostOf req ≤ balanceOf req s ∧ 1 ≤ amountOf req := by
  unfold createPayout at h
  split at h
  · exact absurd h (by simp)
  split at h
  · exact absurd h (by simp)
  split at h
  · exact absurd h (by simp)
  split at h
  · exact absurd h (by simp)
  split at h
  · exact absurd h (by simp)
  split at h
  · exact absurd h (by simp)
  split at h
  · exact absurd h (by simp)
  split at h
  · -- failure-injection branch taken
    split at h
    · -- rollback on timeout
      rename_i hval hrange hdesc hurl hdup hrate hbal hfi hrb
      rw [Prod.mk.injEq] at h
      obtain ⟨hres, hst⟩ := h
      injection hres with h1 h2
      subst hst
      refine ⟨h1.symm, ?_, hfi.1, hfi.2, rfl, rfl, rfl, rfl, rfl, rfl, ?_, ?_,
        by omega, by omega⟩
      · rw [hrb]; exact h2.symm
      · intro _; rfl
      · intro hh; rw [hrb] at hh; exact absurd hh (by simp)
    · -- no rollback: balance stays deducted
      rename_i hval hrange hdesc hurl hdup hrate hbal hfi hrb
      rw [Prod.mk.injEq] at h
      obtain ⟨hres, hst⟩ := h
      injection hres with h1 h2
      subst hst
      have hrbf : s.fiRollbackOnTimeout = false := by
        cases hcase : s.fiRollbackOnTimeout with
        | false => rfl
        | true => exact absurd hcase hrb
      refine ⟨h1.symm, ?_, hfi.1, hfi.2, rfl, rfl, rfl, rfl, rfl, rfl, ?_, ?_,
        by omega, by omega⟩
      · rw [hrbf]; exact h2.symm
      · intro hh; rw [hrbf] at hh; exact absurd hh (by simp)
      · intro _; rfl
  · exact absurd h (by simp)

/-- C2: a `CreatePayout` attempt that passes validation and the balance
check and then hits an injected gateway timeout reports
`chargedAmount = amount + fee`; with rollback-on-timeout enabled the
post-attempt balance equals the pre-attempt balance, and with it
disabled the post-attempt balance is the pre-attempt balance minus the
charge while the payouts index is untouched (in particular the
attempted payout id is absent if it was fresh). -/
theorem gatewayTimeout_balance_rollback (req : CreateRequest) (s : EngineState)
    (now : ℤ) (newId : String) (draw : Bool) (c : ℤ) (rb : Bool) (s' : EngineState)
    (pid : String) (amt : ℤ)
    (hpid : req.projectId = some pid) (hamt : req.amount = some amt)
    (h : createPayout req s now newId draw = (.gatewayTimeout c rb, s')) :
    c = amt + ((jsFee amt.toNat : ℕ) : ℤ) ∧
    (s.fiRollbackOnTimeout = true →
      getA s'.projectBalances pid = some ((getA s.projectBalances pid).getD 0)) ∧
    (s.fiRollbackOnTimeout = false →
      getA s'.projectBalances pid = some ((getA s.projectBalances pid).getD 0 - c) ∧
      s'.payouts = s.payouts ∧
      (getA s.payouts newId = none → getA s'.payouts newId = none)) := by
  obtain ⟨hc, hrb, hfi, hdraw, hpay, hcb, hrl, _, _, _, hbt, hbf, hble, hamt1⟩ :=
    createPayout_timeout_chars req s now newId draw c rb s' h
  have hpid' : projectIdOf req = pid := by rw [projectIdOf, hpid]; rfl
  have hamt' : amountOf req = amt := by rw [amountOf, hamt]; rfl
  have hbal' : balanceOf req s = (getA s.projectBalances pid).getD 0 := by
    rw [balanceOf, hpid']
  refine ⟨?_, ?_, ?_⟩
  · rw [hc]
    unfold totalCostOf feeOf
    rw [hamt']
  · intro htrue
    rw [hbt htrue, hpid', hbal']
    exact getA_setA_self _ _ _
  · intro hfalse
    refine ⟨?_, hpay, fun hfresh => by rw [hpay]; exact hfresh⟩
    rw [hbf hfalse, hpid', hbal', hc]
    unfold totalCostOf feeOf
    rw [hamt']
    exact getA_setA_self _ _ _

/-- C2 witness: concrete timeout with rollback disabled — 100 sats plus
2 sats fee are deducted and not restored, and the payout is unrecorded. -/
def reqCx : CreateRequest :=
  { gamertag := some "alice", amount := some 100, projectId := some "p1",
    idempotencyKey := none, callbackUrl := none, expiresIn := none,
    description := none, internalId := none }

def sCx : EngineState :=
  { payouts := []
    rateLimits := [("rate_alice", [-7200000])]
    projectBalances := [("p1", 1000)]
    callbackLog := []
    fiEnabled := true
    fiTimeoutRate := 1
    fiRollbackOnTimeout := true }

def sCxNR : EngineState := { sCx with fiRollbackOnTimeout := false }

theorem gatewayTimeout_balance_rollback_witness :
    getA (createPayout reqCx sCxNR 0 "pc" true).2.projectBalances "p1" = some 898 ∧
    getA (createPayout reqCx sCxNR 0 "pc" true).2.payouts "pc" = none := by
  have h := gatewayTimeout_balance_rollback reqCx sCxNR 0 "pc" true 102 false
    (createPayout reqCx sCxNR 0 "pc" true).2 "p1" 100 rfl rfl (by decide)
  obtain ⟨hbal, hpay, hfresh⟩ := h.2.2 rfl
  constructor
  · rw [hbal]; decide
  · exact hfresh (by decide)

/-- C10 (amended): on a gateway-timeout outcome the payouts index, the
callback log and the failure-injection settings are unchanged and no
timestamp is appended to any rate-limit window; the only rate-limit
change is that the recipient's window has been lazily pruned to the
trailing hour (an entry `("rate_" ++ g, [])` is materialized if absent),
exactly as `checkRateLimit` leaves it on every attempt. -/
theorem gatewayTimeout_frame (req : CreateRequest) (s : EngineState)
    (now : ℤ) (newId : String) (draw : Bool) (c : ℤ) (rb : Bool) (s' : EngineState)
    (g : String) (hgam : req.gamertag = some g)
    (h : createPayout req s now newId draw = (.gatewayTimeout c rb, s')) :
    s'.payouts = s.payouts ∧
    s'.callbackLog = s.callbackLog ∧
    s'.rateLimits = setA s.rateLimits ("rate_" ++ g)
      (pruneWindow now ((getA s.rateLimits ("rate_" ++ g)).getD [])) ∧
    s'.fiEnabled = s.fiEnabled ∧ s'.fiTimeoutRate = s.fiTimeoutRate ∧
    s'.fiRollbackOnTimeout = s.fiRollbackOnTimeout := by
  obtain ⟨_, _, _, _, hpay, hcb, hrl, hfe, hfr, hfb, _, _, _, _⟩ :=
    createPayout_timeout_chars req s now newId draw c rb s' h
  have hg' : gamertagOf req = g := by rw [gamertagOf, hgam]; rfl
  refine ⟨hpay, hcb, ?_, hfe, hfr, hfb⟩
  rw [hrl, checkRateLimit, hg']

/-- C10 witness: the concrete timeout run of `sCx` leaves the payouts
index and callback log untouched and the window pruned. -/
theorem gatewayTimeout_frame_witness :
    (createPayout reqCx sCx 0 "pc" true).2.payouts = sCx.payouts ∧
    (createPayout reqCx sCx 0 "pc" true).2.callbackLog = sCx.callbackLog ∧
    (createPayout reqCx sCx 0 "pc" true).2.rateLimits = [("rate_alice", [])] := by
  have h := gatewayTimeout_frame reqCx sCx 0 "pc" true 102 true
    (createPayout reqCx sCx 0 "pc" true).2 "alice" rfl (by decide)
  refine ⟨h.1, h.2.1, ?_⟩
  rw [h.2.2.1]
  decide

/-- C10 counterexample: engine state other than the balance is *not*
always unchanged by a timed-out attempt — the recipient's stale
rate-limit entry `[-7200000]` is pruned away, so the post-attempt
`rateLimits` differ from the pre-attempt ones even though the balance
was rolled back. -/
theorem gatewayTimeout_not_state_preserving :
    (createPayout reqCx sCx 0 "pc" true).1 = .gatewayTimeout 102 true ∧
    getA (createPayout reqCx sCx 0 "pc" true).2.projectBalances "p1"
      = getA sCx.projectBalances "p1" ∧
    (createPayout reqCx sCx 0 "pc" true).2.rateLimits ≠ sCx.rateLimits := by
  refine ⟨by decide, by decide, by decide⟩

/-! ## Claim C5: idempotent replay is side-effect-free -/

/-- C5: a `CreatePayout` call that passes the four validation steps and
supplies an idempotency key for which a payout already exists (the
first match of the index lookup) returns that existing payout with the
200 "duplicate" outcome and leaves the entire engine state — balances,
rate-limit windows, payouts index and callback log — exactly as it was. -/
theorem idempotentReplay_pure (req : CreateRequest) (s : EngineState) (now : ℤ)
    (newId : String) (draw : Bool) (kv : String × Payout)
    (h1 : truthyS req.gamertag = true) (h2 : truthyZ req.amount = true)
    (h3 : truthyS req.projectId = true)
    (h4 : 1 ≤ amountOf req) (h5 : amountOf req ≤ 100000)
    (h6 : (req.description.getD "").length ≤ 144)
    (h7 : truthyS req.callbackUrl = true → validCallbackUrl (req.callbackUrl.getD "") = true)
    (hdup : dupLookup req s = some kv) :
    createPayout req s now newId draw = (.duplicate kv.2, s) := by
  unfold createPayout
  rw [if_neg (by simp [h1, h2, h3]), if_neg (by omega), if_neg (by omega),
      if_neg (by intro hcon; exact hcon.2 (h7 hcon.1)), hdup]

/-- Fixtures: the spec's worked example — fund 100000, payout of 1000
with key `key-1` (fee 20, total 1020, balance 98980), then replay. -/
def reqKeyed : CreateRequest :=
  { gamertag := some "alice", amount := some 1000,
    projectId := some "project_test_001", idempotencyKey := some "key-1",
    callbackUrl := none, expiresIn := none, description := none,
    internalId := none }

def sAfterFirst : EngineState := (createPayout reqKeyed initState 0 "payout_1" false).2

def payoutFirst : Payout := payoutOf reqKeyed 0 "payout_1"

theorem idempotentReplay_pure_witness :
    createPayout reqKeyed sAfterFirst 500 "payout_2" false
      = (.duplicate payoutFirst, sAfterFirst) ∧
    getA sAfterFirst.projectBalances "project_test_001" = some 98980 := by
  refine ⟨?_, by decide⟩
  exact idempotentReplay_pure reqKeyed sAfterFirst 500 "payout_2" false
    ("payout_1", payoutFirst) (by decide) (by decide) (by decide) (by decide)
    (by decide) (by decide) (by decide) (by decide)

/-! ## Claim C7: rate-limit boundary -/

/-- A request that clears validation, whose idempotency key (if any)
has no existing payout — the preconditions for reaching the rate-limit
check. -/
@[reducible] def passChecks (req : CreateRequest) (s : EngineState) : Prop :=
  truthyS req.gamertag = true ∧ truthyZ req.amount = true ∧
  truthyS req.projectId = true ∧
  1 ≤ amountOf req ∧ amountOf req ≤ 100000 ∧
  (req.description.getD "").length ≤ 144 ∧
  (truthyS req.callbackUrl = true → validCallbackUrl (req.callbackUrl.getD "") = true) ∧
  dupLookup req s = none

theorem createPayout_rateLimited (req : CreateRequest) (s : EngineState)
    (now : ℤ) (newId : String) (draw : Bool) (hpc : passChecks req s)
    (h10 : 10 ≤ (checkRateLimit s.rateLimits (gamertagOf req) now).1) :
    createPayout req s now newId draw = (.rateLimitExceeded 3600, statePruned req s now) := by
  obtain ⟨h1, h2, h3, h4, h5, h6, h7, h8⟩ := hpc
  unfold createPayout
  rw [if_neg (by simp [h1, h2, h3]), if_neg (by omega), if_neg (by omega),
      if_neg (by intro hcon; exact hcon.2 (h7 hcon.1)), h8, if_pos h10]

theorem createPayout_commits (req : CreateRequest) (s : EngineState)
    (now : ℤ) (newId : String) (draw : Bool) (hpc : passChecks req s)
    (hcount : (checkRateLimit s.rateLimits (gamertagOf req) now).1 < 10)
    (hbal : totalCostOf req ≤ balanceOf req s)
    (hfi : ¬ (s.fiEnabled = true ∧ draw = true)) :
    createPayout req s now newId draw
      = (.created (payoutOf req now newId), stateCommitted req s now newId) := by
  obtain ⟨h1, h2, h3, h4, h5, h6, h7, h8⟩ := hpc
  unfold createPayout
  rw [if_neg (by simp [h1, h2, h3]), if_neg (by omega), if_neg (by omega),
      if_neg (by intro hcon; exact hcon.2 (h7 hcon.1)), h8,
      if_neg (by omega), if_neg (by omega), if_neg hfi]

theorem countWindow_zero (s : EngineState) (g : String) (now : ℤ)
    (hold : ∀ t ∈ (getA s.rateLimits ("rate_" ++ g)).getD [], t ≤ now - 3600000) :
    countWindow s g now = 0 := by
  unfold countWindow pruneWindow
  rw [List.length_eq_zero, List.filter_eq_nil_iff]
  intro a ha
  simp only [decide_eq_true_eq]
  have := hold a ha
  omega

/-- C7: (1) a committed payout implies fewer than 10 of the recipient's
timestamps were inside the trailing 3600 s; (2) with 10 or more in the
window, a request that reaches the rate-limit check fails with
`RATE_LIMIT_EXCEEDED` and `retryAfter = 3600`; (3) once every stored
timestamp has aged past the window (and balance/injection permit), the
attempt is committed again. -/
theorem rateLimit_boundary :
    (∀ req s now newId draw p s',
      createPayout req s now newId draw = (.created p, s') →
      countWindow s (gamertagOf req) now < 10) ∧
    (∀ req s now newId draw c rb s',
      createPayout req s now newId draw = (.gatewayTimeout c rb, s') →
      countWindow s (gamertagOf req) now < 10) ∧
    (∀ req s now newId draw, passChecks req s →
      10 ≤ countWindow s (gamertagOf req) now →
      (createPayout req s now newId draw).1 = .rateLimitExceeded 3600) ∧
    (∀ req s now newId draw, passChecks req s →
      (∀ t ∈ (getA s.rateLimits ("rate_" ++ gamertagOf req)).getD [], t ≤ now - 3600000) →
      totalCostOf req ≤ balanceOf req s →
      ¬ (s.fiEnabled = true ∧ draw = true) →
      (createPayout req s now newId draw).1 = .created (payoutOf req now newId)) := by
  refine ⟨?_, ?_, ?_, ?_⟩
  · intro req s now newId draw p s' h
    unfold createPayout at h
    split at h
    · exact absurd h (by simp)
    split at h
    · exact absurd h (by simp)
    split at h
    · exact absurd h (by simp)
    split at h
    · exact absurd h (by simp)
    split at h
    · exact absurd h (by simp)
    split at h
    · exact absurd h (by simp)
    · rename_i hrate
      have he : countWindow s (gamertagOf req) now
          = (checkRateLimit s.rateLimits (gamertagOf req) now).1 := rfl
      omega
  · intro req s now newId draw c rb s' h
    unfold createPayout at h
    split at h
    · exact absurd h (by simp)
    split at h
    · exact absurd h (by simp)
    split at h
    · exact absurd h (by simp)
    split at h
    · exact absurd h (by simp)
    split at h
    · exact absurd h (by simp)
    split at h
    · exact absurd h (by simp)
    · rename_i hrate
      have he : countWindow s (gamertagOf req) now
          = (checkRateLimit s.rateLimits (gamertagOf req) now).1 := rfl
      omega
  · intro req s now newId draw hpc h10
    have he : countWindow s (gamertagOf req) now
        = (checkRateLimit s.rateLimits (gamertagOf req) now).1 := rfl
    rw [createPayout_rateLimited req s now newId draw hpc (by omega)]
  · intro req s now newId draw hpc hold hbal hfi
    have he : countWindow s (gamertagOf req) now
        = (checkRateLimit s.rateLimits (gamertagOf req) now).1 := rfl
    have hz := countWindow_zero s (gamertagOf req) now hold
    rw [createPayout_commits req s now newId draw hpc (by omega) hbal hfi]

/-- C7 witness: with exactly 10 timestamps in the trailing hour the
11th attempt is rejected with retry-after 3600; at a later instant the
window has rolled past all of them and the same request commits. -/
def reqPlain : CreateRequest :=
  { gamertag := some "alice", amount := some 1000,
    projectId := some "project_test_001", idempotencyKey := none,
    callbackUrl := none, expiresIn := none, description := none,
    internalId := none }

def sTen : EngineState :=
  { initState with rateLimits := [("rate_alice", [1, 2, 3, 4, 5, 6, 7, 8, 9, 10])] }

theorem rateLimit_boundary_witness :
    countWindow sTen "alice" 3600000 = 10 ∧
    (createPayout reqPlain sTen 3600000 "p" false).1 = .rateLimitExceeded 3600 ∧
    countWindow sTen "alice" 3600011 = 0 ∧
    (createPayout reqPlain sTen 3600011 "p2" false).1
      = .created (payoutOf reqPlain 3600011 "p2") := by
  refine ⟨by decide, ?_, by decide, ?_⟩
  · exact rateLimit_boundary.2.2.1 reqPlain sTen 3600000 "p" false (by decide) (by decide)
  · exact rateLimit_boundary.2.2.2 reqPlain sTen 3600011 "p2" false (by decide)
      (by decide) (by decide) (by decide)

/-! ## Claim C8: read-triggered expiration -/

/-- C8 (amended): `GET /payouts/:id` transitions a `pending` payout
whose expiry is past to `expired` as a side effect of the read (stamping
`updatedAt` and emitting a callback exactly when one is registered); a
`completed` payout is never transitioned by a read, even past expiry;
and `GET /payouts/by-internal-id/:internalId` performs no expiration
transition at all — it never mutates state. -/
theorem read_triggered_expiration :
    (∀ s now pid p, getA s.payouts pid = some p → p.status = "pending" →
      p.expiresAt < now →
      (getPayoutOp s now pid).1 = some (expiredOnRead p now) ∧
      (expiredOnRead p now).status = "expired" ∧
      getA (getPayoutOp s now pid).2.payouts pid = some (expiredOnRead p now) ∧
      (truthyS p.callbackUrl = true →
        (getPayoutOp s now pid).2.callbackLog
          = s.callbackLog ++ [⟨p.callbackUrl.getD "", expiredOnRead p now, now⟩]) ∧
      (truthyS p.callbackUrl = false →
        (getPayoutOp s now pid).2.callbackLog = s.callbackLog)) ∧
    (∀ s now pid p, getA s.payouts pid = some p → p.status = "completed" →
      getPayoutOp s now pid = (some p, s)) ∧
    (∀ s iid, (getPayoutByInternalId s iid).2 = s) := by
  refine ⟨?_, ?_, ?_⟩
  · intro s now pid p hget hst hexp
    simp only [getPayoutOp, hget]
    rw [if_pos ⟨hexp, hst⟩]
    refine ⟨rfl, rfl, ?_, ?_, ?_⟩
    · by_cases hcb : truthyS p.callbackUrl = true
      · rw [if_pos hcb]
        exact getA_setA_self _ _ _
      · rw [if_neg hcb]
        exact getA_setA_self _ _ _
    · intro hcb
      rw [if_pos hcb]
    · intro hcb
      rw [if_neg (by simp [hcb])]
  · intro s now pid p hget hst
    simp only [getPayoutOp, hget]
    rw [if_neg]
    intro hcon
    rw [hst] at hcon
    exact absurd hcon.2 (by decide)
  · intro s iid
    unfold getPayoutByInternalId
    split <;> rfl

/-- C8 counterexample: a `pending` payout whose expiry (5) is in the
past at read time (10) is returned by the by-internal-id retrieval
still `pending`, with the whole state unchanged — no expiration
transition and no callback, even though a callback URL is registered.
Reading the same payout by id at the same instant does transition it,
so the two retrieval operations genuinely differ. -/
def pendingPayout : Payout :=
  { id := "payout_p", internalId := some "corr1", gamertag := "alice",
    amount := 100, fee := 2, totalCost := 102, projectId := "project_test_001",
    idempotencyKey := none, description := none,
    callbackUrl := some "http://cb.example/hook", status := "pending",
    expiresIn := 300, expiresAt := 5, createdAt := 0, updatedAt := none }

def sPending : EngineState := { initState with payouts := [("payout_p", pendingPayout)] }

theorem byInternalId_no_expiration :
    pendingPayout.status = "pending" ∧ pendingPayout.expiresAt < 10 ∧
    getPayoutByInternalId sPending "corr1" = (some pendingPayout, sPending) ∧
    (getPayoutOp sPending 10 "payout_p").1 = some (expiredOnRead pendingPayout 10) := by
  exact ⟨rfl, by decide, by decide, by decide⟩

/-- C8 witness: the first arm of the amended theorem applied to the
concrete pending payout read by id at time 10. -/
theorem read_triggered_expiration_witness :
    (getPayoutOp sPending 10 "payout_p").1 = some (expiredOnRead pendingPayout 10) ∧
    getA (getPayoutOp sPending 10 "payout_p").2.payouts "payout_p"
      = some (expiredOnRead pendingPayout 10) ∧
    (getPayoutOp sPending 10 "payout_p").2.callbackLog
      = [⟨"http://cb.example/hook", expiredOnRead pendingPayout 10, 10⟩] := by
  have h := read_triggered_expiration.1 sPending 10 "payout_p" pendingPayout
    (by decide) rfl (by decide)
  refine ⟨h.1, h.2.2.1, ?_⟩
  rw [h.2.2.2.1 (by decide)]
  rfl

/-! ## Claim C1: idempotency keys are global, not project-scoped
(BUG-005 in the source's own header comment) -/

def reqProjA : CreateRequest :=
  { gamertag := some "g1", amount := some 100, projectId := some "projA",
    idempotencyKey := some "shared-key", callbackUrl := none,
    expiresIn := none, description := none, internalId := none }

def reqProjB : CreateRequest :=
  { reqProjA with gamertag := some "g2", projectId := some "projB" }

def sTwoProjects : EngineState :=
  { initState with projectBalances := [("projA", 10000), ("projB", 10000)] }

def sAfterA : EngineState := (createPayout reqProjA sTwoProjects 0 "payoutA" false).2

/-- C1 evaluated on the source's lookup (payment-api.js lines 203-206,
documented there as BUG-005): project A creates a payout under key
`shared-key`; project B's own request with the same key is then
answered with **A's** payout (`projectId = "projA"`), B's balance is
untouched and no payout is created for B — the key is global, not
scoped per project as the specification requires. -/
theorem idempotencyKey_not_project_scoped :
    (createPayout reqProjA sTwoProjects 0 "payoutA" false).1
      = .created (payoutOf reqProjA 0 "payoutA") ∧
    (payoutOf reqProjA 0 "payoutA").projectId = "projA" ∧
    reqProjB.projectId = some "projB" ∧
    reqProjB.idempotencyKey = reqProjA.idempotencyKey ∧
    createPayout reqProjB sAfterA 1000 "payoutB" false
      = (.duplicate (payoutOf reqProjA 0 "payoutA"), sAfterA) ∧
    getA sAfterA.projectBalances "projB" = some 10000 ∧
    getA sAfterA.payouts "payoutB" = none := by
  exact ⟨by decide, rfl, rfl, rfl, by decide, by decide, by decide⟩

/-! ## Claim C3: a zero amount is reported as a missing field
(BUG-001 in the source's own header comment) -/

def reqZeroAmt : CreateRequest :=
  { gamertag := some "alice", amount := some 0,
    projectId := some "project_test_001", idempotencyKey := none,
    callbackUrl := none, expiresIn := none, description := none,
    internalId := none }

/-- C3 evaluated on the source (payment-api.js line 168, documented
there as BUG-001): with `gamertag` and `projectId` present and
`amount` present with value exactly 0, the `!amount` check treats 0 as
falsy, so the call fails with `VALIDATION_ERROR` (missing required
fields) and *not* with the `INVALID_AMOUNT` range error the
specification requires. -/
theorem zeroAmount_validation_bug :
    reqZeroAmt.amount = some 0 ∧
    createPayout reqZeroAmt initState 0 "p" false = (.validationError, initState) ∧
    (createPayout reqZeroAmt initState 0 "p" false).1 ≠ .invalidAmount := by
  exact ⟨rfl, by decide, by decide⟩

/-! ## Claim C4: an unknown project reads as balance 0
(BUG-004 in the source's own header comment) -/

def reqGhost : CreateRequest :=
  { gamertag := some "alice", amount := some 1000,
    projectId := some "ghost_project", idempotencyKey := none,
    callbackUrl := none, expiresIn := none, description := none,
    internalId := none }

/-- C4 evaluated on the source (payment-api.js line 227, documented
there as BUG-004): a request naming a never-funded project passes
validation, idempotency and rate-limit checks, then
`projectBalances.get(projectId) || 0` silently treats the unknown
project as a zero-balance one, so the call fails with
`INSUFFICIENT_BALANCE` (HTTP 402) and not with the distinct
`PROJECT_NOT_FOUND` (404) the specification requires. -/
theorem unknownProject_insufficientBalance_bug :
    getA initState.projectBalances "ghost_project" = none ∧
    (createPayout reqGhost initState 0 "p" false).1
      = .insufficientBalance 1000 20 1020 0 ∧
    createHttpStatus (createPayout reqGhost initState 0 "p" false).1 = 402 := by
  exact ⟨rfl, by decide, by decide⟩

/-! ## Claim C6: the fee is the exact ceiling of 2% -/

theorem ceil_div50 (a : ℕ) : ⌈(a : ℚ) * (2 / 100)⌉ = (((a + 49) / 50 : ℕ) : ℤ) := by
  have e : (a : ℚ) * (2 / 100) = (a : ℚ) / 50 := by ring
  set q := (a + 49) / 50 with hq
  have h1 : (a : ℕ) ≤ 50 * q := by omega
  have h2 : 50 * q ≤ a + 49 := by omega
  have hq1 : (a : ℚ) ≤ 50 * (q : ℚ) := by exact_mod_cast h1
  have hq2 : 50 * (q : ℚ) ≤ (a : ℚ) + 49 := by exact_mod_cast h2
  have hcast : (((q : ℕ) : ℤ) : ℚ) = (q : ℚ) := by norm_cast
  rw [e, Int.ceil_eq_iff]
  constructor
  · rw [lt_div_iff₀ (by norm_num : (0 : ℚ) < 50), hcast]
    linarith
  · rw [div_le_iff₀ (by norm_num : (0 : ℚ) < 50), hcast]
    linarith

/-- C6: for every amount in [1, 100000] the binary64 computation
`Math.ceil(amount * 0.02)` equals the exact mathematical ceiling of
`amount × 0.02` (equivalently `⌈amount / 50⌉ = (amount + 49) / 50`);
in particular 1 ↦ 1, 150 ↦ 3, 100000 ↦ 2000; and every committed
payout carries `fee` equal to that ceiling, `totalCost = amount + fee`,
with exactly `totalCost` deducted from the project balance. -/
theorem fee_2pct_exact_ceiling :
    (∀ a : ℕ, 1 ≤ a → a ≤ 100000 →
      ((jsFee a : ℕ) : ℤ) = ⌈(a : ℚ) * (2 / 100)⌉ ∧ jsFee a = (a + 49) / 50) ∧
    jsFee 1 = 1 ∧ jsFee 150 = 3 ∧ jsFee 100000 = 2000 ∧
    (∀ req s now newId draw p s' pid,
      createPayout req s now newId draw = (.created p, s') →
      req.projectId = some pid →
      1 ≤ p.amount ∧ p.amount ≤ 100000 ∧
      p.fee = ⌈(p.amount : ℚ) * (2 / 100)⌉ ∧
      p.totalCost = p.amount + p.fee ∧
      getA s'.projectBalances pid
        = some ((getA s.projectBalances pid).getD 0 - p.totalCost)) := by
  have hmain : ∀ a : ℕ, 1 ≤ a → a ≤ 100000 →
      ((jsFee a : ℕ) : ℤ) = ⌈(a : ℚ) * (2 / 100)⌉ ∧ jsFee a = (a + 49) / 50 := by
    intro a h1 h2
    have he := jsFee_eq a h1 h2
    refine ⟨?_, he⟩
    rw [he, ceil_div50]
  refine ⟨hmain, by decide, by decide, by decide, ?_⟩
  intro req s now newId draw p s' pid h hpid
  unfold createPayout at h
  split at h
  · exact absurd h (by simp)
  split at h
  · exact absurd h (by simp)
  split at h
  · exact absurd h (by simp)
  split at h
  · exact absurd h (by simp)
  split at h
  · exact absurd h (by simp)
  split at h
  · exact absurd h (by simp)
  split at h
  · exact absurd h (by simp)
  split at h
  · split at h
    · exact absurd h (by simp)
    · exact absurd h (by simp)
  · rename_i hval hrange hdesc hurl hdup hrate hbal hfi
    rw [Prod.mk.injEq] at h
    obtain ⟨hres, hst⟩ := h
    injection hres with hp
    subst hst
    have hpid' : projectIdOf req = pid := by rw [projectIdOf, hpid]; rfl
    have hamt : p.amount = amountOf req := by rw [← hp]; rfl
    have hfee : p.fee = ((jsFee (amountOf req).toNat : ℕ) : ℤ) := by rw [← hp]; rfl
    have ha1 : 1 ≤ (amountOf req).toNat := by omega
    have ha2 : (amountOf req).toNat ≤ 100000 := by omega
    have h0 : (((amountOf req).toNat : ℕ) : ℤ) = amountOf req :=
      Int.toNat_of_nonneg (by omega)
    have hcast := congrArg (fun z : ℤ => (z : ℚ)) h0
    push_cast at hcast
    refine ⟨by rw [hamt]; omega, by rw [hamt]; omega, ?_, by rw [← hp]; rfl, ?_⟩
    · rw [hfee, hamt, ← hcast]
      exact (hmain (amountOf req).toNat ha1 ha2).1
    · rw [stateCommitted_balances, hpid']
      have hbal2 : balanceOf req s = (getA s.projectBalances pid).getD 0 := by
        rw [balanceOf, hpid']
      have htc : p.totalCost = totalCostOf req := by rw [← hp]; rfl
      rw [← hbal2, htc]
      exact getA_setA_self _ _ _

/-- C6 witness: the fee theorem evaluated at the boundary values and on
a concrete committed payout (1000 sats, fee 20, balance 98980). -/
theorem fee_2pct_exact_ceiling_witness :
    jsFee 1 = 1 ∧ jsFee 150 = 3 ∧
    ((jsFee 1000 : ℕ) : ℤ) = ⌈(1000 : ℚ) * (2 / 100)⌉ ∧
    getA (createPayout reqPlain initState 0 "pw" false).2.projectBalances
      "project_test_001" = some 98980 := by
  refine ⟨fee_2pct_exact_ceiling.2.1, fee_2pct_exact_ceiling.2.2.1, ?_, ?_⟩
  · have h := (fee_2pct_exact_ceiling.1 1000 (by norm_num) (by norm_num)).1
    exact_mod_cast h
  · have he := fee_2pct_exact_ceiling.2.2.2.2 reqPlain initState 0 "pw" false
      (payoutOf reqPlain 0 "pw") (createPayout reqPlain initState 0 "pw" false).2
      "project_test_001" (by decide) rfl
    rw [he.2.2.2.2]
    decide

end ZbdPay
